import Mathlib

/-!
Shallow embedding of the authentication/authorization gateway and API-token
lifecycle of the weather-subscription application.

Sources embedded:
- the Lambda authorizer (`handler`, `validateCognitoToken`, `validateApiKey`)
  that classifies a raw credential string and validates it against either the
  Cognito JWT verifier or the DynamoDB token table;
- the token lifecycle Lambda (`createToken`, `listTokens`, `revokeToken`)
  in `apps/api/src/tokens/index.ts` together with the record shapes of
  `apps/api/src/tokens/types.ts`.

External effects are made explicit parameters:
- the SHA-256 digest is an arbitrary function `hash : String → String`
  (the source computes a SHA-256 hex digest, a deterministic function of
  the input string);
- the DynamoDB token table is a `List ApiToken`; the hash-indexed query of
  the source returns the matching items in table order and the source reads
  `Items[0]`, embedded as `head?` of `filter`;
- the Cognito verifier is a function `jwtVerify : String → Option String`
  returning the `sub` claim on success;
- `Date.now()` (in seconds), the generated random part, the UUID and the
  ISO creation timestamp are explicit arguments.
-/

namespace WeatherAuth

/-- JavaScript `s.startsWith(p)`: the character sequence of `p` is an
initial segment of the character sequence of `s`. -/
def jsStartsWith (s p : String) : Bool :=
  p.data.isPrefixOf s.data

/-- JavaScript `s.trim()`: remove whitespace from both ends of the
character sequence. -/
def jsTrim (s : String) : String :=
  ⟨((s.data.dropWhile Char.isWhitespace).reverse.dropWhile
      Char.isWhitespace).reverse⟩

/-- The `ApiToken` persistent record of `apps/api/src/tokens/types.ts`.
The display-prefix field (first 12 characters of the plaintext) is named
`pfx` here because its source name is a reserved word in Lean. -/
structure ApiToken where
  id : String
  userId : String
  tokenHash : String
  name : String
  pfx : String
  createdAt : String
  lastUsedAt : Option String := none
  expiresAt : Option Nat := none
  revoked : Bool
deriving DecidableEq, Repr

/-- The `authType` value placed in the authorizer context. -/
inductive AuthType
  | cognito
  | apikey
deriving DecidableEq, Repr

/-- Outcome of one credential-validation function (`validateCognitoToken` or
`validateApiKey`): an Allow policy with context, or the thrown
`Unauthorized`. -/
inductive AuthResult
  | allow (userId : String) (tokenId : Option String) (authType : AuthType)
  | unauthorized
deriving DecidableEq, Repr

/-- The hash-indexed DynamoDB query of `validateApiKey`: all items whose
`tokenHash` equals the digest, in table order; the source then reads
`Items[0]`, i.e. the head. -/
def findByHash (store : List ApiToken) (h : String) : Option ApiToken :=
  (store.filter (fun t => t.tokenHash == h)).head?

/-- The expiry guard of `validateApiKey`:
`if (apiToken.expiresAt && apiToken.expiresAt < Math.floor(Date.now() / 1000))`.
JavaScript truthiness makes the guard false when `expiresAt` is absent and
also when it is the number `0`. -/
def isExpiredJs (expiresAt : Option Nat) (now : Nat) : Bool :=
  match expiresAt with
  | none => false
  | some e => e != 0 && e < now

/-- `validateApiKey` of the Lambda authorizer: hash the supplied token, look
it up by the hash index, reject when missing, revoked or expired, otherwise
allow with the record's `userId`, `tokenId` and `authType = apikey`.
All throws inside the function are caught and rethrown as `Unauthorized`. -/
def validateApiKey (store : List ApiToken) (hash : String → String)
    (token : String) (now : Nat) : AuthResult :=
  match findByHash store (hash token) with
  | none => .unauthorized
  | some apiToken =>
    if apiToken.revoked then .unauthorized
    else if isExpiredJs apiToken.expiresAt now then .unauthorized
    else .allow apiToken.userId (some apiToken.id) .apikey

/-- `validateCognitoToken` of the Lambda authorizer: verify the JWT with the
Cognito verifier (embedded as `jwtVerify`, returning the `sub` claim on
success) and allow with `authType = cognito`; any verification failure is
rethrown as `Unauthorized`. -/
def validateCognitoToken (jwtVerify : String → Option String)
    (token : String) : AuthResult :=
  match jwtVerify token with
  | some sub => .allow sub none .cognito
  | none => .unauthorized

/-- Internal outcome of the authorizer `handler` before its outer catch:
the Allow policy, the `Invalid token format` throw for an unclassifiable
credential, or an `Unauthorized` throw from one of the validators. -/
inductive GatewayResult
  | allow (userId : String) (tokenId : Option String) (authType : AuthType)
  | invalidFormat
  | unauthorized
deriving DecidableEq, Repr

/-- The externally visible decision of the authorizer: the outer catch of
`handler` turns every thrown error into a single opaque `Unauthorized`
throw, so callers see only allowed/denied. -/
inductive Decision
  | allowed (userId : String) (tokenId : Option String) (authType : AuthType)
  | denied
deriving DecidableEq, Repr

/-- The authorizer `handler` body: dispatch on the raw credential string —
a `Bearer ` marker selects the Cognito path on the string with its first 7
characters removed (`token.substring(7)`), a `wea_` marker selects the
API-key path on the whole string, anything else throws
`Invalid token format`. -/
def authorizerInternal (store : List ApiToken) (hash : String → String)
    (jwtVerify : String → Option String) (now : Nat)
    (token : String) : GatewayResult :=
  if jsStartsWith token "Bearer " then
    match validateCognitoToken jwtVerify (token.drop 7) with
    | .allow u t a => .allow u t a
    | .unauthorized => .unauthorized
  else if jsStartsWith token "wea_" then
    match validateApiKey store hash token now with
    | .allow u t a => .allow u t a
    | .unauthorized => .unauthorized
  else .invalidFormat

/-- The authorizer `handler` with its outer catch applied: any internal
failure becomes the single opaque denial. -/
def authorizerHandler (store : List ApiToken) (hash : String → String)
    (jwtVerify : String → Option String) (now : Nat)
    (token : String) : Decision :=
  match authorizerInternal store hash jwtVerify now token with
  | .allow u t a => .allowed u t a
  | _ => .denied

/-- The `CreateTokenRequest` shape of `apps/api/src/tokens/types.ts`:
a name and an optional expiry in days. -/
structure CreateTokenRequest where
  name : String
  expiresInDays : Option Int := none
deriving DecidableEq, Repr

/-- The `Omit ApiToken tokenHash` shape returned by Issue and List
(`tokenInfo` in the source): every `ApiToken` field except `tokenHash`. -/
structure TokenInfo where
  id : String
  userId : String
  name : String
  pfx : String
  createdAt : String
  lastUsedAt : Option String
  expiresAt : Option Nat
  revoked : Bool
deriving DecidableEq, Repr

/-- The destructuring `const { tokenHash: _, ...tokenInfo } = apiToken` of
the source: drop the hash, keep every other field. -/
def stripHash (t : ApiToken) : TokenInfo :=
  { id := t.id, userId := t.userId, name := t.name, pfx := t.pfx,
    createdAt := t.createdAt, lastUsedAt := t.lastUsedAt,
    expiresAt := t.expiresAt, revoked := t.revoked }

/-- Outcome of `createToken`: a 400 validation failure with the source's
message, or the 201 `CreateTokenResponse` carrying the plaintext token and
the record with the hash stripped. -/
inductive CreateResult
  | validationError (msg : String)
  | created (token : String) (tokenInfo : TokenInfo)
deriving DecidableEq, Repr

/-- The absolute expiry computed by `createToken`:
`expiryDate.setDate(expiryDate.getDate() + expiresInDays)` then
`Math.floor(expiryDate.getTime() / 1000)`. Calendar-day addition is embedded
as 86400-second days on the current epoch-seconds clock. -/
def expiryEpoch (now : Nat) (d : Int) : Nat :=
  now + d.toNat * 86400

/-- `createToken` of the tokens Lambda. Validation order follows the source:
the trimmed name must be non-empty, then `expiresInDays`, when present
(`!== undefined`), must lie in `[1, 365]`. The plaintext is the `wea_`
marker followed by the random part, the stored hash is the digest of the
plaintext, the display prefix is its first 12 characters, and `expiresAt`
is set only under `if (request.expiresInDays)` — JavaScript truthiness,
false for an absent value and for the number `0`. The new record is put
into the table with a fresh UUID key, embedded as an append; validation
failures return before any write. -/
def createToken (hash : String → String) (store : List ApiToken)
    (userId : String) (req : CreateTokenRequest)
    (randomPart newId createdAt : String) (now : Nat) :
    CreateResult × List ApiToken :=
  if (jsTrim req.name).data.length == 0 then
    (.validationError "Token name is required", store)
  else if (match req.expiresInDays with
           | some d => d < 1 || d > 365
           | none => false) then
    (.validationError "Expiry must be between 1 and 365 days", store)
  else
    let token := "wea_" ++ randomPart
    let tokenHash := hash token
    let pfx := token.take 12
    let expiresAt : Option Nat :=
      match req.expiresInDays with
      | some d => if d != 0 then some (expiryEpoch now d) else none
      | none => none
    let apiToken : ApiToken :=
      { id := newId, userId := userId, tokenHash := tokenHash,
        name := jsTrim req.name, pfx := pfx, createdAt := createdAt,
        lastUsedAt := none, expiresAt := expiresAt, revoked := false }
    (.created token (stripHash apiToken), store ++ [apiToken])

/-- `listTokens` of the tokens Lambda: query the `UserIdIndex` for the
caller's records and strip `tokenHash` from every result. -/
def listTokens (store : List ApiToken) (userId : String) : List TokenInfo :=
  (store.filter (fun t => t.userId == userId)).map stripHash

/-- Outcome of `revokeToken`: 400 for a missing path id, 404 when no record
has the id, 403 when the record belongs to another user, 200 on success. -/
inductive RevokeResult
  | missingId
  | notFound
  | forbidden
  | revokedOk
deriving DecidableEq, Repr

/-- The `UpdateCommand` of `revokeToken`: `SET revoked = :revoked` with
`true` on the record keyed by the token id. -/
def markRevoked (store : List ApiToken) (tokenId : String) : List ApiToken :=
  store.map (fun t => if t.id == tokenId then { t with revoked := true } else t)

/-- `revokeToken` of the tokens Lambda: require the path id, get the record
by id, 404 when absent, 403 when `item.userId !== userId`, otherwise set
`revoked = true` and acknowledge. The two failure returns happen before the
update command, leaving the table untouched. -/
def revokeToken (store : List ApiToken) (userId : String) :
    Option String → RevokeResult × List ApiToken
  | none => (.missingId, store)
  | some tid =>
    match store.find? (fun t => t.id == tid) with
    | none => (.notFound, store)
    | some item =>
      if item.userId != userId then (.forbidden, store)
      else (.revokedOk, markRevoked store tid)

/-- The body of the 500 response built by the tokens Lambda's catch-all:
a fixed generic message plus an `error` field holding
`error instanceof Error ? error.message : 'Unknown error'`. The thrown
value is embedded as `some msg` for an `Error` with message `msg` and
`none` for any other throwable. -/
structure InternalErrorResponse where
  statusCode : Nat
  message : String
  error : String
deriving DecidableEq, Repr

/-- The catch-all of the tokens Lambda `handler`: every error escaping a
lifecycle operation becomes a 500 whose body repeats the underlying
error's message in the `error` field. -/
def internalErrorResponse (errMsg : Option String) : InternalErrorResponse :=
  { statusCode := 500, message := "Internal server error",
    error := errMsg.getD "Unknown error" }

/-- One request against the token subsystem, for stating store invariants:
an Issue, a List, a Revoke, or a bearer-token verification. -/
inductive Op
  | issue (userId : String) (req : CreateTokenRequest)
      (randomPart newId createdAt : String)
  | listOp (userId : String)
  | revoke (userId : String) (tokenId : Option String)
  | verify (token : String)

/-- Effect of one request on the token table: Issue may append a record,
Revoke may set a `revoked` flag, List and verification never write
(`lastUsedAt` is declared in the record shape but no operation writes it). -/
def applyOp (hash : String → String) (now : Nat) (store : List ApiToken) :
    Op → List ApiToken
  | .issue u req rp nid ca => (createToken hash store u req rp nid ca now).2
  | .listOp _ => store
  | .revoke u tid => (revokeToken store u tid).2
  | .verify _ => store

/-- Effect of a sequence of requests on the token table. -/
def applyOps (hash : String → String) (now : Nat) (store : List ApiToken)
    (ops : List Op) : List ApiToken :=
  ops.foldl (applyOp hash now) store

/-! Helper lemmas about the hash-indexed and id-indexed lookups. -/

theorem findByHash_some {store : List ApiToken} {h : String} {r : ApiToken}
    (hf : findByHash store h = some r) : r ∈ store ∧ r.tokenHash = h := by
  induction store with
  | nil => simp [findByHash] at hf
  | cons a tl ih =>
    unfold findByHash at hf
    rw [List.filter_cons] at hf
    cases hba : (a.tokenHash == h) with
    | true =>
      rw [hba] at hf
      simp only [if_true, List.head?_cons, Option.some.injEq] at hf
      subst hf
      exact ⟨List.mem_cons_self a tl, by simpa using hba⟩
    | false =>
      rw [hba] at hf
      rw [if_neg Bool.false_ne_true] at hf
      obtain ⟨hmem, hhash⟩ := ih hf
      exact ⟨List.mem_cons_of_mem a hmem, hhash⟩

theorem findByHash_eq_some_of_mem {store : List ApiToken} {h : String}
    {r : ApiToken}
    (huniq : ∀ a ∈ store, ∀ b ∈ store, a.tokenHash = b.tokenHash → a = b)
    (hmem : r ∈ store) (hr : r.tokenHash = h) : findByHash store h = some r := by
  induction store with
  | nil => simp at hmem
  | cons a tl ih =>
    unfold findByHash
    rw [List.filter_cons]
    cases hba : (a.tokenHash == h) with
    | true =>
      have ha : a.tokenHash = h := by simpa using hba
      have : a = r :=
        huniq a (List.mem_cons_self a tl) r hmem (by rw [ha, hr])
      simp [this]
    | false =>
      have ha : a.tokenHash ≠ h := by simpa using hba
      have hrtl : r ∈ tl := by
        rcases List.mem_cons.mp hmem with rfl | htl
        · exact absurd hr ha
        · exact htl
      rw [if_neg Bool.false_ne_true]
      exact ih
        (fun x hx y hy => huniq x (List.mem_cons_of_mem a hx)
          y (List.mem_cons_of_mem a hy)) hrtl

theorem findByHash_append_right {s1 s2 : List ApiToken} {h : String}
    (hnone : ∀ r ∈ s1, r.tokenHash ≠ h) :
    findByHash (s1 ++ s2) h = findByHash s2 h := by
  unfold findByHash
  rw [List.filter_append, List.filter_eq_nil_iff.mpr
    (fun r hr => by simpa using hnone r hr), List.nil_append]

theorem find?_append_right {α : Type} {s1 s2 : List α} {p : α → Bool}
    (hnone : ∀ x ∈ s1, ¬ p x) : (s1 ++ s2).find? p = s2.find? p := by
  induction s1 with
  | nil => rfl
  | cons a tl ih =>
    rw [List.cons_append, List.find?_cons]
    cases hpa : p a with
    | true => exact absurd hpa (by simpa using hnone a (List.mem_cons_self a tl))
    | false =>
      exact ih (fun x hx => hnone x (List.mem_cons_of_mem a hx))

theorem isExpiredJs_eq_true_iff (ea : Option Nat) (now : Nat) :
    isExpiredJs ea now = true ↔ ∃ e, ea = some e ∧ e ≠ 0 ∧ e < now := by
  cases ea <;> simp [isExpiredJs]

theorem isExpiredJs_eq_false_iff (ea : Option Nat) (now : Nat) :
    isExpiredJs ea now = false ↔
      ea = none ∨ ea = some 0 ∨ ∃ e, ea = some e ∧ now ≤ e := by
  cases ea with
  | none => simp [isExpiredJs]
  | some e =>
    simp only [isExpiredJs, Bool.and_eq_false_iff, bne_eq_false_iff_eq,
      decide_eq_false_iff_not, Option.some.injEq, not_lt]
    constructor
    · rintro (h0 | hle)
      · exact Or.inr (Or.inl h0)
      · exact Or.inr (Or.inr ⟨e, rfl, hle⟩)
    · rintro (h | h0 | ⟨e', he', hle⟩)
      · exact Option.noConfusion h
      · exact Or.inl h0
      · cases he'; exact Or.inr hle

/-! Claim theorems. -/

/-- C1 (amended): over a store whose records have pairwise distinct hashes,
`validateApiKey` allows exactly when the supplied plaintext hashes to a
stored record whose `revoked` flag is false and whose `expiresAt` is unset,
the literal `0`, or at least the current time; the Allow decision carries
that record's `userId` (and `tokenId`, with `authType = apikey`), and in
every other case the result is `Unauthorized`. -/
theorem verification_accepts_iff (store : List ApiToken)
    (hash : String → String) (token : String) (now : Nat)
    (huniq : ∀ a ∈ store, ∀ b ∈ store, a.tokenHash = b.tokenHash → a = b) :
    (∀ u tid ty, validateApiKey store hash token now = .allow u tid ty →
      ty = .apikey ∧ ∃ r ∈ store, r.tokenHash = hash token ∧
        r.revoked = false ∧ u = r.userId ∧ tid = some r.id) ∧
    (validateApiKey store hash token now = .unauthorized ↔
      ¬ ∃ r ∈ store, r.tokenHash = hash token ∧ r.revoked = false ∧
        (r.expiresAt = none ∨ r.expiresAt = some 0 ∨
          ∃ e, r.expiresAt = some e ∧ now ≤ e)) := by
  cases hf : findByHash store (hash token) with
  | none =>
    have hval : validateApiKey store hash token now = .unauthorized := by
      unfold validateApiKey; rw [hf]
    constructor
    · intro u tid ty hallow
      rw [hval] at hallow
      exact AuthResult.noConfusion hallow
    · rw [hval]
      refine iff_of_true rfl ?_
      rintro ⟨r, hmem, hhash, -⟩
      rw [findByHash_eq_some_of_mem huniq hmem hhash] at hf
      exact Option.noConfusion hf
  | some r =>
    obtain ⟨hmem, hhash⟩ := findByHash_some hf
    have hsame : ∀ r' ∈ store, r'.tokenHash = hash token → r' = r :=
      fun r' hmem' hhash' => huniq r' hmem' r hmem (by rw [hhash', hhash])
    cases hrev : r.revoked with
    | true =>
      have hval : validateApiKey store hash token now = .unauthorized := by
        unfold validateApiKey; rw [hf]; simp [hrev]
      constructor
      · intro u tid ty hallow
        rw [hval] at hallow
        exact AuthResult.noConfusion hallow
      · rw [hval]
        refine iff_of_true rfl ?_
        rintro ⟨r', hmem', hhash', hrev', -⟩
        rw [hsame r' hmem' hhash', hrev] at hrev'
        exact Bool.noConfusion hrev'
    | false =>
      cases hexp : isExpiredJs r.expiresAt now with
      | true =>
        obtain ⟨e, hea, hne, hlt⟩ :=
          (isExpiredJs_eq_true_iff r.expiresAt now).mp hexp
        have hval : validateApiKey store hash token now = .unauthorized := by
          unfold validateApiKey; rw [hf]; simp [hrev, hexp]
        constructor
        · intro u tid ty hallow
          rw [hval] at hallow
          exact AuthResult.noConfusion hallow
        · rw [hval]
          refine iff_of_true rfl ?_
          rintro ⟨r', hmem', hhash', -, hok⟩
          rw [hsame r' hmem' hhash'] at hok
          rcases hok with hn | h0 | ⟨e', he', hle⟩
          · rw [hn] at hea; exact Option.noConfusion hea
          · rw [h0] at hea
            injection hea with he0
            exact hne he0.symm
          · rw [he'] at hea
            injection hea with he0
            omega
      | false =>
        have hval : validateApiKey store hash token now =
            .allow r.userId (some r.id) .apikey := by
          unfold validateApiKey; rw [hf]; simp [hrev, hexp]
        have hok := (isExpiredJs_eq_false_iff r.expiresAt now).mp hexp
        constructor
        · intro u tid ty hallow
          rw [hval] at hallow
          injection hallow with hu htid hty
          exact ⟨hty.symm ▸ rfl, r, hmem, hhash, hrev, hu.symm ▸ rfl,
            htid.symm ▸ rfl⟩
        · rw [hval]
          refine iff_of_false (by simp) ?_
          intro hne
          exact hne ⟨r, hmem, hhash, hrev, hok⟩

/-- A stored token record sitting exactly at its expiry instant: `expiresAt`
equals the current clock value `10`. -/
def boundaryTok : ApiToken :=
  { id := "t1", userId := "u1", tokenHash := "h1", name := "CI",
    pfx := "wea_abc", createdAt := "2024-01-01T00:00:00Z",
    lastUsedAt := none, expiresAt := some 10, revoked := false }

/-- C1 counterexample: at `now = 10` a record with `expiresAt = 10` is
accepted by `validateApiKey` (the source rejects only `expiresAt < now`),
although `expiresAt` is not strictly greater than the current time, so the
claim's only-if direction demands `Unauthorized` here. -/
theorem verification_strict_expiry_counterexample :
    validateApiKey [boundaryTok] (fun _ => "h1") "wea_abc" 10 =
      .allow "u1" (some "t1") .apikey ∧ ¬ (10 < 10) :=
  ⟨by decide, by omega⟩

/-- Witness for C1 (amended): the amended characterization applied to the
one-record store at the expiry instant. -/
theorem verification_accepts_iff_witness :
    (∀ u tid ty,
      validateApiKey [boundaryTok] (fun _ => "h1") "wea_abc" 10 =
          .allow u tid ty →
      ty = .apikey ∧ ∃ r ∈ [boundaryTok], r.tokenHash = "h1" ∧
        r.revoked = false ∧ u = r.userId ∧ tid = some r.id) ∧
    (validateApiKey [boundaryTok] (fun _ => "h1") "wea_abc" 10 =
        .unauthorized ↔
      ¬ ∃ r ∈ [boundaryTok], r.tokenHash = "h1" ∧ r.revoked = false ∧
        (r.expiresAt = none ∨ r.expiresAt = some 0 ∨
          ∃ e, r.expiresAt = some e ∧ 10 ≤ e)) :=
  verification_accepts_iff [boundaryTok] (fun _ => "h1") "wea_abc" 10
    (by decide)

theorem mem_markRevoked {store : List ApiToken} {tid : String} {r : ApiToken}
    (hr : r ∈ markRevoked store tid) :
    ∃ r0 ∈ store,
      r = (if r0.id == tid then { r0 with revoked := true } else r0) := by
  unfold markRevoked at hr
  obtain ⟨r0, h0, heq⟩ := List.mem_map.mp hr
  exact ⟨r0, h0, heq.symm⟩

theorem markRevoked_append (s1 s2 : List ApiToken) (tid : String) :
    markRevoked (s1 ++ s2) tid = markRevoked s1 tid ++ markRevoked s2 tid :=
  List.map_append _ s1 s2

/-- C2: issuing a token with a non-empty name and no expiry and then
verifying the returned plaintext at any time succeeds with
`authType = apikey` and the issuing user's `userId`; after revoking that
token, verifying the same plaintext fails with `Unauthorized`. The digest
used at issuance and at verification is the same function, so the round
trip needs only that the fresh token's hash and id do not collide with a
record already in the store. -/
theorem issue_verify_revoke_roundtrip
    (hash : String → String) (store : List ApiToken)
    (userId name randomPart newId createdAt : String) (now : Nat)
    (hname : (jsTrim name).data.length ≠ 0)
    (hfresh : ∀ r ∈ store, r.tokenHash ≠ hash ("wea_" ++ randomPart))
    (hid : ∀ r ∈ store, r.id ≠ newId) :
    ∃ tok info store1,
      createToken hash store userId ⟨name, none⟩ randomPart newId createdAt
          now = (.created tok info, store1) ∧
      validateApiKey store1 hash tok now = .allow userId (some newId) .apikey ∧
      (revokeToken store1 userId (some newId)).1 = .revokedOk ∧
      validateApiKey (revokeToken store1 userId (some newId)).2 hash tok now =
        .unauthorized := by
  set tok := "wea_" ++ randomPart with htok
  set newRec : ApiToken :=
    { id := newId, userId := userId, tokenHash := hash tok,
      name := jsTrim name, pfx := tok.take 12, createdAt := createdAt,
      lastUsedAt := none, expiresAt := none, revoked := false } with hrec
  have hc : createToken hash store userId ⟨name, none⟩ randomPart newId
      createdAt now = (.created tok (stripHash newRec), store ++ [newRec]) := by
    unfold createToken
    rw [if_neg (by simpa using hname)]
    rfl
  have hfound : (store ++ [newRec]).find? (fun t => t.id == newId) =
      some newRec := by
    rw [find?_append_right (fun r hr => by simpa using hid r hr)]
    simp
  have hrevoke : revokeToken (store ++ [newRec]) userId (some newId) =
      (.revokedOk, markRevoked store newId ++
        [{ newRec with revoked := true }]) := by
    simp only [revokeToken]
    rw [hfound]
    simp [markRevoked_append, markRevoked]
  refine ⟨tok, stripHash newRec, store ++ [newRec], hc, ?_, ?_, ?_⟩
  · have hfind : findByHash (store ++ [newRec]) (hash tok) = some newRec := by
      rw [findByHash_append_right hfresh]
      unfold findByHash
      simp
    unfold validateApiKey
    rw [hfind]
    simp [isExpiredJs]
  · rw [hrevoke]
  · rw [hrevoke]
    have hfresh2 : ∀ r ∈ markRevoked store newId, r.tokenHash ≠ hash tok := by
      intro r hr
      obtain ⟨r0, h0, heq⟩ := mem_markRevoked hr
      have hth : r.tokenHash = r0.tokenHash := by
        rw [heq]; split <;> rfl
      rw [hth]
      exact hfresh r0 h0
    have hfind : findByHash
        (markRevoked store newId ++ [{ newRec with revoked := true }])
        (hash tok) = some { newRec with revoked := true } := by
      rw [findByHash_append_right hfresh2]
      unfold findByHash
      simp
    unfold validateApiKey
    rw [hfind]
    rfl

/-- Witness for C2: the round trip run in the empty store with a concrete
digest function and concrete identifiers. -/
theorem issue_verify_revoke_roundtrip_witness :
    ∃ tok info store1,
      createToken (fun _ => "HH") [] "u1" ⟨"CI", none⟩ "r" "id1" "c" 0 =
        (.created tok info, store1) ∧
      validateApiKey store1 (fun _ => "HH") tok 0 =
        .allow "u1" (some "id1") .apikey ∧
      (revokeToken store1 "u1" (some "id1")).1 = .revokedOk ∧
      validateApiKey (revokeToken store1 "u1" (some "id1")).2 (fun _ => "HH")
        tok 0 = .unauthorized :=
  issue_verify_revoke_roundtrip (fun _ => "HH") [] "u1" "CI" "r" "id1" "c" 0
    (by decide) (by simp) (by simp)

theorem listTokens_map_hash (store : List ApiToken) (userId : String)
    (f : ApiToken → String) :
    listTokens (store.map (fun t => { t with tokenHash := f t })) userId =
      listTokens store userId := by
  unfold listTokens
  rw [List.filter_map]
  have hp : ((fun t : ApiToken => t.userId == userId) ∘
      fun t => { t with tokenHash := f t }) =
      fun t : ApiToken => t.userId == userId := funext fun t => rfl
  rw [hp, List.map_map]
  have hs : (stripHash ∘ fun t : ApiToken => { t with tokenHash := f t }) =
      stripHash := funext fun t => rfl
  rw [hs]

/-- C3: no response of Issue or List contains the stored `tokenHash`. The
List output is exactly the caller's records with the hash stripped, it is
unchanged when every stored hash is rewritten arbitrarily (so no stored
hash can influence any List response, whatever the token states), the
stripping function itself ignores the hash field, and a successful Issue
returns the persisted record with the hash stripped. -/
theorem responses_never_contain_token_hash :
    (∀ store userId, listTokens store userId =
      (store.filter (fun t => t.userId == userId)).map stripHash) ∧
    (∀ (store : List ApiToken) (userId : String) (f : ApiToken → String),
      listTokens (store.map (fun t => { t with tokenHash := f t })) userId =
        listTokens store userId) ∧
    (∀ t h, stripHash { t with tokenHash := h } = stripHash t) ∧
    (∀ hash store userId req randomPart newId createdAt now tok info store1,
      createToken hash store userId req randomPart newId createdAt now =
        (.created tok info, store1) →
      ∃ rec, store1 = store ++ [rec] ∧ info = stripHash rec) := by
  refine ⟨fun store userId => rfl, listTokens_map_hash,
    fun t h => rfl, ?_⟩
  intro hash store userId req randomPart newId createdAt now tok info store1 h
  unfold createToken at h
  split at h
  · exact absurd (congrArg Prod.fst h) (by simp)
  · split at h
    · exact absurd (congrArg Prod.fst h) (by simp)
    · obtain ⟨h1, h2⟩ := Prod.mk.injEq .. ▸ h
      injection h1 with htok hinfo
      exact ⟨_, h2.symm, hinfo.symm⟩

/-- A record as persisted by a successful Issue with no expiry, for the
concrete witnesses below. -/
def freshRec : ApiToken :=
  { id := "id1", userId := "u1", tokenHash := "HH", name := "CI",
    pfx := "wea_r", createdAt := "c", lastUsedAt := none,
    expiresAt := none, revoked := false }

/-- Witness for C3: the Issue conjunct applied to a concrete successful
creation in the empty store. -/
theorem responses_never_contain_token_hash_witness :
    ∃ rec, [freshRec] = ([] : List ApiToken) ++ [rec] ∧
      stripHash freshRec = stripHash rec :=
  responses_never_contain_token_hash.2.2.2 (fun _ => "HH") [] "u1"
    ⟨"CI", none⟩ "r" "id1" "c" 0 "wea_r" (stripHash freshRec) [freshRec]
    (by decide)

/-- C4: a Revoke whose id matches no record fails with `NotFound`; a Revoke
of a record owned by a different user fails with `Forbidden`; both failures
return before the update command and leave the store unchanged. -/
theorem revoke_failures_leave_store_unchanged (store : List ApiToken)
    (userId tid : String) :
    (store.find? (fun t => t.id == tid) = none →
      revokeToken store userId (some tid) = (.notFound, store)) ∧
    (∀ r, store.find? (fun t => t.id == tid) = some r → r.userId ≠ userId →
      revokeToken store userId (some tid) = (.forbidden, store)) := by
  constructor
  · intro h
    simp only [revokeToken]
    rw [h]
  · intro r hfind hown
    simp only [revokeToken]
    rw [hfind]
    simp only [if_pos (bne_iff_ne.mpr hown)]

/-- Witness for C4: both failure branches on a one-record store. -/
theorem revoke_failures_witness :
    revokeToken [freshRec] "u1" (some "nope") = (.notFound, [freshRec]) ∧
    revokeToken [freshRec] "intruder" (some "id1") =
      (.forbidden, [freshRec]) :=
  ⟨(revoke_failures_leave_store_unchanged [freshRec] "u1" "nope").1
      (by decide),
   (revoke_failures_leave_store_unchanged [freshRec] "intruder" "id1").2
      freshRec (by decide) (by decide)⟩

theorem markRevoked_idem (store : List ApiToken) (tid : String) :
    markRevoked (markRevoked store tid) tid = markRevoked store tid := by
  unfold markRevoked
  rw [List.map_map]
  congr 1
  funext t
  by_cases h : (t.id == tid) = true
  · simp [Function.comp, h]
  · simp [Function.comp, h]

/-- C5: revoking an owned token succeeds, and an immediate second revoke of
the same token also succeeds and returns exactly the store produced by the
first revoke (revoking an already-revoked token is a no-op success). -/
theorem revoke_idempotent (store : List ApiToken) (userId tid : String)
    (r : ApiToken) (hfind : store.find? (fun t => t.id == tid) = some r)
    (hown : r.userId = userId) :
    revokeToken store userId (some tid) =
      (.revokedOk, markRevoked store tid) ∧
    revokeToken (markRevoked store tid) userId (some tid) =
      (.revokedOk, markRevoked store tid) := by
  have hnb : (r.userId != userId) = false := by
    rw [hown]; simp
  constructor
  · simp only [revokeToken]
    rw [hfind]
    simp only [hnb, Bool.false_eq_true, if_false]
  · have hid : (r.id == tid) = true := by
      have := List.find?_some hfind
      simpa using this
    have hfind2 : (markRevoked store tid).find? (fun t => t.id == tid) =
        some { r with revoked := true } := by
      unfold markRevoked
      rw [List.find?_map]
      have hp : ((fun t : ApiToken => t.id == tid) ∘
          fun t => if t.id == tid then { t with revoked := true } else t) =
          fun t : ApiToken => t.id == tid := by
        funext t
        by_cases h : (t.id == tid) = true
        · simp [Function.comp, h]
        · simp [Function.comp, h]
      rw [hp, hfind]
      exact congrArg some (if_pos hid)
    simp only [revokeToken]
    rw [hfind2]
    have hnb2 : (({ r with revoked := true } : ApiToken).userId != userId) =
        false := hnb
    simp only [hnb2, Bool.false_eq_true, if_false]
    rw [markRevoked_idem]

/-- Witness for C5: the double revoke on a concrete one-record store. -/
theorem revoke_idempotent_witness :
    revokeToken [freshRec] "u1" (some "id1") =
      (.revokedOk, markRevoked [freshRec] "id1") ∧
    revokeToken (markRevoked [freshRec] "id1") "u1" (some "id1") =
      (.revokedOk, markRevoked [freshRec] "id1") :=
  revoke_idempotent [freshRec] "u1" "id1" freshRec (by decide) (by decide)

/-- C6: an Issue request whose `expiresInDays` lies outside `[1, 365]`
fails with a validation error and persists nothing, and a successful Issue
with `expiresInDays` omitted persists a record with no `expiresAt`. -/
theorem expiry_validation (hash : String → String) (store : List ApiToken)
    (userId name randomPart newId createdAt : String) (now : Nat) (d : Int)
    (hd : d < 1 ∨ d > 365) :
    (∃ msg, createToken hash store userId ⟨name, some d⟩ randomPart newId
      createdAt now = (.validationError msg, store)) ∧
    (∀ tok info store1,
      createToken hash store userId ⟨name, none⟩ randomPart newId createdAt
        now = (.created tok info, store1) →
      ∃ rec, store1 = store ++ [rec] ∧ rec.expiresAt = none) := by
  constructor
  · unfold createToken
    by_cases h1 : ((jsTrim name).data.length == 0) = true
    · exact ⟨"Token name is required", by rw [if_pos h1]⟩
    · refine ⟨"Expiry must be between 1 and 365 days", ?_⟩
      rw [if_neg h1, if_pos ?_]
      show (decide (d < 1) || decide (d > 365)) = true
      rcases hd with h | h
      · simp [h]
      · simp [h]
  · intro tok info store1 h
    unfold createToken at h
    split at h
    · exact absurd (congrArg Prod.fst h) (by simp)
    · split at h
      · exact absurd (congrArg Prod.fst h) (by simp)
      · obtain ⟨h1, h2⟩ := Prod.mk.injEq .. ▸ h
        exact ⟨_, h2.symm, rfl⟩

/-- Witness for C6: `expiresInDays = 400` is rejected; a concrete Issue
with the field omitted persists `freshRec`, which has no expiry. -/
theorem expiry_validation_witness :
    (∃ msg, createToken (fun _ => "HH") [] "u1" ⟨"CI", some 400⟩ "r" "id1"
      "c" 0 = (.validationError msg, [])) ∧
    (∃ rec, [freshRec] = ([] : List ApiToken) ++ [rec] ∧
      rec.expiresAt = none) :=
  ⟨(expiry_validation (fun _ => "HH") [] "u1" "CI" "r" "id1" "c" 0 400
      (by decide)).1,
   (expiry_validation (fun _ => "HH") [] "u1" "CI" "r" "id1" "c" 0 400
      (by decide)).2 "wea_r" (stripHash freshRec) [freshRec] (by decide)⟩

/-- C7: a credential carrying neither the `Bearer ` marker nor the `wea_`
marker is classified `Invalid token format` and denied. The conclusion
holds for every store, digest function, JWT verifier and clock, so the
invalid-format branch consults none of them — no persistence lookup and no
signature check takes place. -/
theorem invalid_format_denied (store : List ApiToken)
    (hash : String → String) (jwtVerify : String → Option String)
    (now : Nat) (token : String)
    (h1 : jsStartsWith token "Bearer " = false)
    (h2 : jsStartsWith token "wea_" = false) :
    authorizerInternal store hash jwtVerify now token = .invalidFormat ∧
    authorizerHandler store hash jwtVerify now token = .denied := by
  have hi : authorizerInternal store hash jwtVerify now token =
      .invalidFormat := by
    unfold authorizerInternal
    rw [h1, if_neg Bool.false_ne_true, h2, if_neg Bool.false_ne_true]
  refine ⟨hi, ?_⟩
  unfold authorizerHandler
  rw [hi]

/-- Witness for C7: the literal credential string `garbage`. -/
theorem invalid_format_denied_witness :
    authorizerInternal [freshRec] (fun _ => "HH") (fun _ => none) 0
      "garbage" = .invalidFormat ∧
    authorizerHandler [freshRec] (fun _ => "HH") (fun _ => none) 0
      "garbage" = .denied :=
  invalid_format_denied [freshRec] (fun _ => "HH") (fun _ => none) 0
    "garbage" (by decide) (by decide)

theorem applyOp_preserves_revoked (hash : String → String) (now : Nat)
    (store : List ApiToken) (op : Op) (t : ApiToken)
    (hmem : t ∈ store) (hrev : t.revoked = true) :
    ∃ t' ∈ applyOp hash now store op, t'.id = t.id ∧ t'.revoked = true := by
  cases op with
  | listOp u => exact ⟨t, hmem, rfl, hrev⟩
  | verify tok => exact ⟨t, hmem, rfl, hrev⟩
  | issue u req rp nid ca =>
    simp only [applyOp]
    unfold createToken
    split
    · exact ⟨t, hmem, rfl, hrev⟩
    · split
      · exact ⟨t, hmem, rfl, hrev⟩
      · exact ⟨t, List.mem_append_left _ hmem, rfl, hrev⟩
  | revoke u tid =>
    cases tid with
    | none => exact ⟨t, hmem, rfl, hrev⟩
    | some tid =>
      simp only [applyOp, revokeToken]
      cases hf : store.find? (fun x => x.id == tid) with
      | none =>
        exact ⟨t, hmem, rfl, hrev⟩
      | some item =>
        show ∃ t' ∈ (if (item.userId != u) = true
            then (RevokeResult.forbidden, store)
            else (RevokeResult.revokedOk, markRevoked store tid)).2,
          t'.id = t.id ∧ t'.revoked = true
        by_cases hb : (item.userId != u) = true
        · rw [if_pos hb]
          exact ⟨t, hmem, rfl, hrev⟩
        · rw [if_neg hb]
          refine ⟨if t.id == tid then { t with revoked := true } else t,
            List.mem_map_of_mem _ hmem, ?_, ?_⟩
          · by_cases h : (t.id == tid) = true
            · rw [if_pos h]
            · rw [if_neg h]
          · by_cases h : (t.id == tid) = true
            · rw [if_pos h]
            · rw [if_neg h]; exact hrev

theorem applyOps_preserves_revoked (hash : String → String) (now : Nat)
    (ops : List Op) :
    ∀ store t, t ∈ store → t.revoked = true →
      ∃ t' ∈ applyOps hash now store ops,
        t'.id = t.id ∧ t'.revoked = true := by
  induction ops with
  | nil =>
    intro store t hmem hrev
    exact ⟨t, hmem, rfl, hrev⟩
  | cons op rest ih =>
    intro store t hmem hrev
    obtain ⟨t1, hmem1, hid1, hrev1⟩ :=
      applyOp_preserves_revoked hash now store op t hmem hrev
    obtain ⟨t2, hmem2, hid2, hrev2⟩ :=
      ih (applyOp hash now store op) t1 hmem1 hrev1
    exact ⟨t2, hmem2, by rw [hid2, hid1], hrev2⟩

/-- C8: every successfully issued record starts with `revoked = false`, and
the flag is monotonic — once a record is revoked, after any sequence of
Issue, List, Revoke or verification requests the table still contains a
record with that id whose `revoked` flag is still true (no operation ever
clears the flag). -/
theorem revoked_monotonic :
    (∀ hash store userId req randomPart newId createdAt now tok info store1,
      createToken hash store userId req randomPart newId createdAt now =
        (CreateResult.created tok info, store1) →
      ∃ rec, store1 = store ++ [rec] ∧ rec.revoked = false) ∧
    (∀ (hash : String → String) (now : Nat) (ops : List Op)
        (store : List ApiToken) (t : ApiToken),
      t ∈ store → t.revoked = true →
      ∃ t' ∈ applyOps hash now store ops,
        t'.id = t.id ∧ t'.revoked = true) := by
  constructor
  · intro hash store userId req randomPart newId createdAt now tok info
      store1 h
    unfold createToken at h
    split at h
    · exact absurd (congrArg Prod.fst h) (by simp)
    · split at h
      · exact absurd (congrArg Prod.fst h) (by simp)
      · obtain ⟨h1, h2⟩ := Prod.mk.injEq .. ▸ h
        exact ⟨_, h2.symm, rfl⟩
  · intro hash now ops store t hmem hrev
    exact applyOps_preserves_revoked hash now ops store t hmem hrev

/-- A revoked record, for the monotonicity witness. -/
def revokedRec : ApiToken :=
  { id := "t9", userId := "u1", tokenHash := "h9", name := "old",
    pfx := "wea_old", createdAt := "b", lastUsedAt := none,
    expiresAt := none, revoked := true }

/-- Witness for C8: a concrete issue leaves the record unrevoked, and a
revoked record survives an issue followed by a repeat revoke. -/
theorem revoked_monotonic_witness :
    (∃ rec, [freshRec] = ([] : List ApiToken) ++ [rec] ∧
      rec.revoked = false) ∧
    (∃ t' ∈ applyOps (fun _ => "HH") 0 [revokedRec]
        [Op.issue "u1" ⟨"CI", none⟩ "r" "id1" "c",
         Op.revoke "u1" (some "t9")],
      t'.id = revokedRec.id ∧ t'.revoked = true) :=
  ⟨revoked_monotonic.1 (fun _ => "HH") [] "u1" ⟨"CI", none⟩ "r" "id1" "c" 0
      "wea_r" (stripHash freshRec) [freshRec] (by decide),
   revoked_monotonic.2 (fun _ => "HH") 0
      [Op.issue "u1" ⟨"CI", none⟩ "r" "id1" "c",
       Op.revoke "u1" (some "t9")] [revokedRec] revokedRec
      (by decide) (by decide)⟩

/-- C9 counterexample: the tokens Lambda's catch-all copies the underlying
error's message verbatim into the response body's `error` field, so two
different internal failures are distinguishable by the caller — the
response is not free of internal detail. -/
theorem internal_error_detail_counterexample :
    (internalErrorResponse (some "DynamoDB put failed")).error =
      "DynamoDB put failed" ∧
    internalErrorResponse (some "DynamoDB put failed") ≠
      internalErrorResponse (some "network timeout") :=
  ⟨rfl, by decide⟩

/-- C9 (amended): every internal failure is reported with status 500 and
the fixed generic message `Internal server error`, but the body's `error`
field additionally carries the underlying error's message (`Unknown error`
for a non-`Error` throwable). -/
theorem internal_error_response_shape (e : Option String) :
    (internalErrorResponse e).statusCode = 500 ∧
    (internalErrorResponse e).message = "Internal server error" ∧
    (internalErrorResponse e).error = e.getD "Unknown error" :=
  ⟨rfl, rfl, rfl⟩

/-- C10: a credential starting with the `Bearer ` marker takes only the
federated path; when JWT verification of the unwrapped string fails the
request is denied even if that string is a `wea_` API token the store
would accept, and the outcome is independent of the token store — the
store is never consulted on this path. -/
theorem bearer_marker_takes_jwt_path (store : List ApiToken)
    (hash : String → String) (jwtVerify : String → Option String)
    (now : Nat) (s u tid : String)
    (hs : jsStartsWith s "Bearer " = true)
    (hjwt : jwtVerify (s.drop 7) = none)
    (_hapi : validateApiKey store hash (s.drop 7) now =
      .allow u (some tid) .apikey) :
    authorizerInternal store hash jwtVerify now s = .unauthorized ∧
    authorizerHandler store hash jwtVerify now s = .denied ∧
    (∀ store2, authorizerInternal store2 hash jwtVerify now s =
      authorizerInternal store hash jwtVerify now s) := by
  have hi : ∀ st : List ApiToken,
      authorizerInternal st hash jwtVerify now s = .unauthorized := by
    intro st
    unfold authorizerInternal
    rw [hs, if_pos rfl]
    unfold validateCognitoToken
    rw [hjwt]
  refine ⟨hi store, ?_, fun st2 => by rw [hi st2, hi store]⟩
  unfold authorizerHandler
  rw [hi store]

/-- Witness for C10: `Bearer wea_abc` wraps a plaintext whose hash matches
the stored, unrevoked, unexpired record `boundaryTok`, yet the gateway
denies, identically over the one-record store and the empty store. -/
theorem bearer_marker_takes_jwt_path_witness :
    authorizerInternal [boundaryTok] (fun _ => "h1") (fun _ => none) 0
      "Bearer wea_abc" = .unauthorized ∧
    authorizerHandler [boundaryTok] (fun _ => "h1") (fun _ => none) 0
      "Bearer wea_abc" = .denied ∧
    authorizerInternal [] (fun _ => "h1") (fun _ => none) 0
        "Bearer wea_abc" =
      authorizerInternal [boundaryTok] (fun _ => "h1") (fun _ => none) 0
        "Bearer wea_abc" :=
  ⟨(bearer_marker_takes_jwt_path [boundaryTok] (fun _ => "h1")
      (fun _ => none) 0 "Bearer wea_abc" "u1" "t1" (by decide) rfl
      (by decide)).1,
   (bearer_marker_takes_jwt_path [boundaryTok] (fun _ => "h1")
      (fun _ => none) 0 "Bearer wea_abc" "u1" "t1" (by decide) rfl
      (by decide)).2.1,
   (bearer_marker_takes_jwt_path [boundaryTok] (fun _ => "h1")
      (fun _ => none) 0 "Bearer wea_abc" "u1" "t1" (by decide) rfl
      (by decide)).2.2 []⟩

end WeatherAuth
